import Mathlib

set_option maxRecDepth 4000

/-!
Verification of the layered configuration loader (`kedro/config/config.py`).

The embedding models paths and glob patterns as strings, parsed configuration
files as insertion-ordered association lists with opaque values (represented
by naturals), and the filesystem as an explicit list of files, each carrying
its parse result (`none` models a file whose format parser fails).

`ConfigLoader` itself is translated from `src/kedro/config/config.py`.
The collaborators that the source imports but whose code is not part of the
source tree (`_remove_duplicates`, `_get_config_from_patterns`, and the
section mapping installed by `AbstractConfigLoader.__init__`) are modelled
from the specification, as noted on each definition.
-/

abbrev Key := String

/-- Parsed configuration content: an insertion-ordered association list from
top-level keys to opaque values (modelled as naturals). -/
abbrev ConfigDict := List (Key × Nat)

/-- First-binding lookup, mirroring Python dictionary access. -/
def lookupKey {β : Type} : List (String × β) → String → Option β
  | [], _ => none
  | (k0, v) :: rest, k => if k0 = k then some v else lookupKey rest k

/-- Fuel-driven wildcard match of a single path segment: a star matches any
(possibly empty) run of characters, every other character matches itself.
The fuel argument only provides a structurally decreasing measure: every
recursive call shrinks `p.length + s.length`, so the wrapper's fuel of
`p.length + s.length + 1` is never exhausted. -/
def segMatchF : Nat → List Char → List Char → Bool
  | 0, _, _ => false
  | n + 1, p, s =>
    match p, s with
    | '*' :: ps, [] => segMatchF n ps []
    | '*' :: ps, c :: ss => segMatchF n ps (c :: ss) || segMatchF n ('*' :: ps) ss
    | q :: ps, c :: ss => q == c && segMatchF n ps ss
    | [], [] => true
    | _, _ => false

def segMatch (p s : List Char) : Bool := segMatchF (p.length + s.length + 1) p s

/-- Fuel-driven glob match over path segments: a double-star segment matches
any (possibly empty) run of segments, any other segment is matched by
`segMatch`.  The fuel plays the same role as in `segMatchF`. -/
def globMatchF : Nat → List String → List String → Bool
  | 0, _, _ => false
  | n + 1, p, s =>
    match p, s with
    | "**" :: ps, [] => globMatchF n ps []
    | "**" :: ps, t :: ss => globMatchF n ps (t :: ss) || globMatchF n ("**" :: ps) ss
    | q :: ps, t :: ss => segMatch q.data t.data && globMatchF n ps ss
    | [], [] => true
    | _, _ => false

def globMatch (p s : List String) : Bool := globMatchF (p.length + s.length + 1) p s

def splitSlashAux : List Char → List Char → List String
  | [], cur => [String.mk cur.reverse]
  | '/' :: rest, cur => String.mk cur.reverse :: splitSlashAux rest []
  | c :: rest, cur => splitSlashAux rest (c :: cur)

/-- Split a path or pattern string into its slash-separated segments. -/
def toSegments (s : String) : List String := splitSlashAux s.data []

/-- Extensions recognised by the loader (spec section 6). -/
def SUPPORTED_EXTENSIONS : List String :=
  ["yaml", "yml", "json", "ini", "pickle", "pkl", "xml", "properties"]

def hasSupportedExtension (path : String) : Bool :=
  SUPPORTED_EXTENSIONS.any (fun e => (("." ++ e).data).isSuffixOf path.data)

/-- An element of the pattern list handed to discovery.  Because of the tuple
precedence in `get_essential_config` (`provided_patterns or f"..."` binds
before the tuple commas), a caller-supplied value — which the spec describes
as a configuration mapping — can end up in pattern position, so an element is
either a glob string or such a mapping.  A mapping in pattern position is
modelled charitably as matching no filesystem path (CPython would raise a
`TypeError` when joining it onto a directory path). -/
inductive PatternElem where
  | glob (pattern : String)
  | dictPat (d : ConfigDict)
deriving DecidableEq

/-- Python truthiness of a pattern element (non-empty string / non-empty dict). -/
def PatternElem.truthy : PatternElem → Bool
  | .glob s => s != ""
  | .dictPat d => !d.isEmpty

def PatternElem.matchesRel : PatternElem → List String → Bool
  | .glob p, rel => globMatch (toSegments p) rel
  | .dictPat _, _ => false

/-- A filesystem entry: an absolute slash-separated path together with the
result of the format-specific parser (`none` models a parse failure). -/
structure FsFile where
  path : String
  parsed : Option ConfigDict
deriving DecidableEq

def isUnderDir (cp : String) (path : String) : Bool :=
  (cp.data ++ ['/']).isPrefixOf path.data

def relSegments (cp : String) (path : String) : List String :=
  splitSlashAux (path.data.drop (cp.data.length + 1)) []

/-- Modelled from the spec (4.2b step 1a, `_get_config_from_patterns` is not
part of the source tree): the files under one config path that match some
pattern and carry a supported extension. -/
def matchingFiles (fs : List FsFile) (cp : String) (patterns : List PatternElem) : List FsFile :=
  fs.filter (fun f =>
    isUnderDir cp f.path && hasSupportedExtension f.path &&
      patterns.any (fun p => p.matchesRel (relSegments cp f.path)))

/-- The error kinds of spec section 7. -/
inductive ConfigError where
  | missingConfig (patterns : List PatternElem) (confPaths : List String)
  | duplicateKeys (key : Key) (file1 : String) (file2 : String)
  | parseError (file : String)
deriving DecidableEq

/-- Per-directory accumulator: each key is recorded with the file that
produced it (needed to report both sides of a duplicate-key conflict). -/
abbrev DirAcc := List (Key × (String × Nat))

/-- Modelled from the spec (4.2b step 1c): insert the entries of one parsed
file, failing on a key already produced by an earlier file of the same
directory. -/
def insertEntries (file : String) : List (Key × Nat) → DirAcc → Except ConfigError DirAcc
  | [], acc => .ok acc
  | (k, v) :: rest, acc =>
    match lookupKey acc k with
    | some (file0, _) => .error (.duplicateKeys k file0 file)
    | none => insertEntries file rest (acc ++ [(k, (file, v))])

/-- Modelled from the spec (4.2b steps 1b and 1c): parse and merge the files
of one directory, failing on parse errors and same-directory key collisions. -/
def mergeDirFiles : List FsFile → DirAcc → Except ConfigError DirAcc
  | [], acc => .ok acc
  | f :: rest, acc =>
    match f.parsed with
    | none => .error (.parseError f.path)
    | some entries =>
      match insertEntries f.path entries acc with
      | .error e => .error e
      | .ok acc2 => mergeDirFiles rest acc2

def stripProvenance (acc : DirAcc) : ConfigDict :=
  acc.map (fun kv => (kv.1, kv.2.2))

/-- Modelled from the spec (4.2b step 1): the merged configuration of a
single config path. -/
def mergeDir (fs : List FsFile) (cp : String) (patterns : List PatternElem) :
    Except ConfigError ConfigDict :=
  match mergeDirFiles (matchingFiles fs cp patterns) [] with
  | .error e => .error e
  | .ok acc => .ok (stripProvenance acc)

/-- Insert-or-replace of one key, preserving insertion order — the behaviour
of a Python dict update for a single key. -/
def setKey : ConfigDict → Key → Nat → ConfigDict
  | [], k, v => [(k, v)]
  | (k0, v0) :: rest, k, v =>
    if k0 = k then (k, v) :: rest else (k0, v0) :: setKey rest k v

/-- Modelled from the spec (4.2b step 2): overlay a later directory's merged
mapping onto the accumulator, replacing existing values key by key. -/
def overlay (acc : ConfigDict) (dir : ConfigDict) : ConfigDict :=
  dir.foldl (fun a kv => setKey a kv.1 kv.2) acc

/-- Modelled from the spec (4.2b): walk the config paths in resolution order,
merging each directory and overlaying it onto the accumulator while counting
the files discovered so far. -/
def processPaths (fs : List FsFile) (patterns : List PatternElem) :
    List String → ConfigDict → Nat → Except ConfigError (ConfigDict × Nat)
  | [], acc, n => .ok (acc, n)
  | cp :: rest, acc, n =>
    match mergeDir fs cp patterns with
    | .error e => .error e
    | .ok d =>
      processPaths fs patterns rest (overlay acc d) (n + (matchingFiles fs cp patterns).length)

/-- Modelled from the spec (4.2b, `kedro.config.common` is not part of the
source tree): the discovery-and-merge algorithm.  After all config paths are
processed, zero discovered files is reported as the missing-configuration
error naming the patterns and the directories searched. -/
def _get_config_from_patterns (fs : List FsFile) (conf_paths : List String)
    (patterns : List PatternElem) : Except ConfigError ConfigDict :=
  match processPaths fs patterns conf_paths [] 0 with
  | .error e => .error e
  | .ok (cfg, n) =>
    if n = 0 then .error (.missingConfig patterns conf_paths) else .ok cfg

/-- Modelled from the spec (design note on directory deduplication,
`kedro.config.common` is not part of the source tree): drop duplicates,
keeping the first occurrence. -/
def _remove_duplicates (xs : List String) : List String :=
  xs.foldl (fun acc x => if acc.contains x then acc else acc ++ [x]) []

/-- The loader state: the construction parameters plus the mapping of the
four essential section names to their configs.  The mapping field is modelled
from the spec (it is installed by `AbstractConfigLoader.__init__`, which is
not part of the source tree). -/
structure ConfigLoader where
  conf_source : String
  base_env : String
  default_run_env : String
  env : Option String
  mapping : List (String × ConfigDict)
deriving DecidableEq

/-- Python `a or b` for an optional string: `None` and the empty string both
fall back to the default. -/
def pyOrStr (a : Option String) (b : String) : String :=
  match a with
  | some s => if s = "" then b else s
  | none => b

def ConfigLoader._build_conf_paths (cl : ConfigLoader) : List String :=
  [cl.conf_source ++ "/" ++ cl.base_env,
   cl.conf_source ++ "/" ++ pyOrStr cl.env cl.default_run_env]

def ConfigLoader.conf_paths (cl : ConfigLoader) : List String :=
  _remove_duplicates cl._build_conf_paths

/-- The pattern tuple computed on line 128 of the source.  Because `or` binds
tighter than the tuple commas, only the first component falls back to the
default when `provided` is falsy; the two glob defaults are always present. -/
def essentialPatterns (config_type : String) (provided : Option PatternElem) :
    List PatternElem :=
  let first : PatternElem :=
    match provided with
    | some pv => if pv.truthy then pv else .glob (config_type ++ "*")
    | none => .glob (config_type ++ "*")
  [first, .glob (config_type ++ "*/**"), .glob ("**/" ++ config_type ++ "*")]

/-- Translation of `ConfigLoader.get_essential_config`.  The boolean records
whether the non-fatal warning was emitted. -/
def ConfigLoader.get_essential_config (cl : ConfigLoader) (fs : List FsFile)
    (config_type : String) (provided : Option PatternElem) :
    Except ConfigError (ConfigDict × Bool) :=
  match _get_config_from_patterns fs cl.conf_paths (essentialPatterns config_type provided) with
  | .error (.missingConfig _ _) => .ok ([], true)
  | .error e => .error e
  | .ok config => .ok (config, false)

/-- The fast-path lookup of `ConfigLoader.get`: with exactly one pattern the
pattern string is looked up in the section mapping. -/
def fastValue (cl : ConfigLoader) (patterns : List String) : Option ConfigDict :=
  match patterns with
  | [p] => lookupKey cl.mapping p
  | _ => none

/-- Translation of `ConfigLoader.get`.  Python's `value or ...` makes both a
missed lookup and a cached empty dict fall through to discovery. -/
def ConfigLoader.get (cl : ConfigLoader) (fs : List FsFile) (patterns : List String) :
    Except ConfigError ConfigDict :=
  match fastValue cl patterns with
  | some v =>
    if v = [] then _get_config_from_patterns fs cl.conf_paths (patterns.map PatternElem.glob)
    else .ok v
  | none => _get_config_from_patterns fs cl.conf_paths (patterns.map PatternElem.glob)

/-- State-passing form of `get`: the source method assigns no attribute, so
the loader state is returned unchanged. -/
def ConfigLoader.getS (cl : ConfigLoader) (fs : List FsFile) (patterns : List String) :
    Except ConfigError ConfigDict × ConfigLoader :=
  (cl.get fs patterns, cl)

/-- The loader state as it stands when `__init__` reaches line 99: path
fields assigned, mapping not yet installed. -/
def preLoader (conf_source base_env default_run_env : String) (env : Option String) :
    ConfigLoader :=
  ⟨conf_source, base_env, default_run_env, env, []⟩

/-- Translation of `ConfigLoader.__init__` (lines 94-112): resolve the four
essential sections, then install the section mapping.  Errors other than
missing configuration propagate out of construction. -/
def mkConfigLoader (fs : List FsFile) (conf_source : String)
    (catalog parameters credentials logging : Option PatternElem)
    (env : Option String) (base_env : String)
    (default_run_env : String) : Except ConfigError ConfigLoader :=
  let pre := preLoader conf_source base_env default_run_env env
  match pre.get_essential_config fs "catalog" catalog with
  | .error e => .error e
  | .ok cat =>
    match pre.get_essential_config fs "parameters" parameters with
    | .error e => .error e
    | .ok par =>
      match pre.get_essential_config fs "credentials" credentials with
      | .error e => .error e
      | .ok cred =>
        match pre.get_essential_config fs "logging" logging with
        | .error e => .error e
        | .ok lg =>
          .ok { pre with
                mapping := [("catalog", cat.1), ("parameters", par.1),
                            ("credentials", cred.1), ("logging", lg.1)] }

deriving instance DecidableEq for Except

/-! ### Helper lemmas -/

theorem string_append_cancel_left {s a b : String} (h : s ++ a = s ++ b) : a = b := by
  have hd : (s ++ a).data = (s ++ b).data := congrArg String.data h
  rw [String.data_append, String.data_append] at hd
  have hab : a.data = b.data := List.append_cancel_left hd
  cases a
  cases b
  exact congrArg String.mk (by simpa using hab)

theorem remove_duplicates_pair (a b : String) :
    _remove_duplicates [a, b] = if a = b then [a] else [a, b] := by
  by_cases h : a = b
  · simp [_remove_duplicates, h]
  · simp [_remove_duplicates, h]
    exact fun hba => h hba.symm

theorem conf_path_inj {cs a b : String} (h : cs ++ "/" ++ a = cs ++ "/" ++ b) : a = b := by
  have hd := congrArg String.data h
  have hslash : ("/" : String).data = ['/'] := rfl
  simp only [String.data_append, hslash, List.append_assoc, List.singleton_append] at hd
  have h2 := List.append_cancel_left hd
  have h3 : a.data = b.data := by injection h2
  cases a
  cases b
  exact congrArg String.mk (by simpa using h3)

theorem insertEntries_ne_missing (file : String) (es : List (Key × Nat)) (acc : DirAcc)
    (ps : List PatternElem) (cps : List String) :
    insertEntries file es acc ≠ Except.error (ConfigError.missingConfig ps cps) := by
  induction es generalizing acc with
  | nil => simp [insertEntries]
  | cons kv rest ih =>
    obtain ⟨k, v⟩ := kv
    rw [insertEntries]
    cases h : lookupKey acc k with
    | none => exact ih _
    | some p =>
      obtain ⟨f0, w⟩ := p
      simp

theorem mergeDirFiles_ne_missing (files : List FsFile) (acc : DirAcc)
    (ps : List PatternElem) (cps : List String) :
    mergeDirFiles files acc ≠ Except.error (ConfigError.missingConfig ps cps) := by
  induction files generalizing acc with
  | nil => simp [mergeDirFiles]
  | cons f rest ih =>
    rw [mergeDirFiles]
    split
    · simp
    · split
      · rename_i entries hpe e hi
        intro hEq
        have he : e = ConfigError.missingConfig ps cps := by injection hEq
        rw [he] at hi
        exact insertEntries_ne_missing _ _ _ _ _ hi
      · exact ih _

theorem mergeDir_ne_missing (fs : List FsFile) (cp : String) (patterns : List PatternElem)
    (ps : List PatternElem) (cps : List String) :
    mergeDir fs cp patterns ≠ Except.error (ConfigError.missingConfig ps cps) := by
  rw [mergeDir]
  cases hm : mergeDirFiles (matchingFiles fs cp patterns) [] with
  | error e =>
    intro hEq
    have he : e = ConfigError.missingConfig ps cps := by injection hEq
    rw [he] at hm
    exact mergeDirFiles_ne_missing _ _ _ _ hm
  | ok acc => simp

theorem processPaths_ne_missing (fs : List FsFile) (patterns : List PatternElem)
    (cps : List String) (acc : ConfigDict) (n : Nat) (ps : List PatternElem)
    (cps2 : List String) :
    processPaths fs patterns cps acc n ≠ Except.error (ConfigError.missingConfig ps cps2) := by
  induction cps generalizing acc n with
  | nil => simp [processPaths]
  | cons cp rest ih =>
    rw [processPaths]
    cases hm : mergeDir fs cp patterns with
    | error e =>
      intro hEq
      have he : e = ConfigError.missingConfig ps cps2 := by injection hEq
      rw [he] at hm
      exact mergeDir_ne_missing _ _ _ _ _ hm
    | ok d => exact ih _ _

theorem get_config_missing_args (fs : List FsFile) (cps : List String)
    (ps : List PatternElem) (a : List PatternElem) (b : List String)
    (h : _get_config_from_patterns fs cps ps = Except.error (ConfigError.missingConfig a b)) :
    a = ps ∧ b = cps := by
  rw [_get_config_from_patterns] at h
  split at h
  · rename_i e heq
    have he : e = ConfigError.missingConfig a b := by injection h
    rw [he] at heq
    exact absurd heq (processPaths_ne_missing _ _ _ _ _ _ _)
  · split at h
    · injection h with h1
      injection h1 with h2 h3
      exact ⟨h2.symm, h3.symm⟩
    · cases h

/-! ### Claim theorems -/

/-- C6: when no patterns are provided, `get_essential_config` discovers a
section named `t` with exactly the three patterns `t*`, `t*/**` and `**/t*`,
in that order. -/
theorem C6_default_essential_patterns (t : String) :
    essentialPatterns t none =
      [PatternElem.glob (t ++ "*"), PatternElem.glob (t ++ "*/**"),
       PatternElem.glob ("**/" ++ t ++ "*")] := rfl

/-- C9: retrieval is deterministic and stateless — running `get` a second
time with the same patterns on the state returned by the first call yields an
equal result, and the first call leaves the loader state unchanged. -/
theorem C9_get_idempotent (cl : ConfigLoader) (fs : List FsFile) (patterns : List String) :
    ((cl.getS fs patterns).2.getS fs patterns).1 = (cl.getS fs patterns).1 ∧
      (cl.getS fs patterns).2 = cl :=
  ⟨rfl, rfl⟩

/-- C10: when the single supplied pattern is a key of the section mapping
whose stored value is the empty (falsy) mapping, `get` does not return the
cached value but performs full pattern-based discovery with that pattern. -/
theorem C10_empty_cache_falls_through (cl : ConfigLoader) (fs : List FsFile) (p : String)
    (h : lookupKey cl.mapping p = some []) :
    cl.get fs [p] = _get_config_from_patterns fs cl.conf_paths [PatternElem.glob p] := by
  rw [ConfigLoader.get]
  have hf : fastValue cl [p] = some ([] : ConfigDict) := h
  rw [hf]
  simp

/-- Witness for C10: on a loader whose credentials section was resolved to
the empty mapping and an empty filesystem, `get "credentials"` runs discovery
and in fact raises the missing-configuration error despite the cached key. -/
theorem C10_witness :
    (⟨"proj/conf", "base", "local", none,
      [("catalog", []), ("parameters", []), ("credentials", []), ("logging", [])]⟩ :
        ConfigLoader).get [] ["credentials"] =
      _get_config_from_patterns []
        (ConfigLoader.conf_paths ⟨"proj/conf", "base", "local", none,
          [("catalog", []), ("parameters", []), ("credentials", []), ("logging", [])]⟩)
        [PatternElem.glob "credentials"] ∧
    (⟨"proj/conf", "base", "local", none,
      [("catalog", []), ("parameters", []), ("credentials", []), ("logging", [])]⟩ :
        ConfigLoader).get [] ["credentials"] =
      Except.error (ConfigError.missingConfig [PatternElem.glob "credentials"]
        ["proj/conf/base", "proj/conf/local"]) :=
  ⟨C10_empty_cache_falls_through _ [] "credentials" (by decide), by decide⟩

/-- Counterexample to C2 as stated: "credentials" is a key of the section
mapping (stored value: the empty mapping), yet `get "credentials"` does not
return that stored value — discovery runs and raises instead. -/
theorem C2_counterexample :
    lookupKey (⟨"proj/conf", "base", "local", none,
        [("catalog", []), ("parameters", []), ("credentials", []), ("logging", [])]⟩ :
          ConfigLoader).mapping "credentials" = some [] ∧
    ¬ ((⟨"proj/conf", "base", "local", none,
        [("catalog", []), ("parameters", []), ("credentials", []), ("logging", [])]⟩ :
          ConfigLoader).get [] ["credentials"] = Except.ok []) := by
  decide

/-- C2 (amended): with exactly one pattern that is a key of the section
mapping, `get` returns the stored value directly, without discovery, provided
that stored value is non-empty (truthy). -/
theorem C2_truthy_fast_path (cl : ConfigLoader) (fs : List FsFile) (p : String)
    (v : ConfigDict) (h1 : lookupKey cl.mapping p = some v) (h2 : v ≠ []) :
    cl.get fs [p] = Except.ok v := by
  rw [ConfigLoader.get]
  have hf : fastValue cl [p] = some v := h1
  rw [hf]
  simp [h2]

/-- Witness for the amended C2: a cached non-empty catalog is returned as is,
on an empty filesystem where discovery would have failed. -/
theorem C2_witness :
    (⟨"proj/conf", "base", "local", none, [("catalog", [("a", 1)])]⟩ : ConfigLoader).get []
        ["catalog"] = Except.ok [("a", 1)] :=
  C2_truthy_fast_path _ [] "catalog" [("a", 1)] (by decide) (by decide)

/-- Counterexample to C3 as stated: a direct `get` whose patterns match no
file raises the missing-configuration error instead of returning an empty
mapping. -/
theorem C3_counterexample :
    (⟨"proj/conf", "base", "local", none,
      [("catalog", []), ("parameters", []), ("credentials", []), ("logging", [])]⟩ :
        ConfigLoader).get [] ["nope*"] =
      Except.error (ConfigError.missingConfig [PatternElem.glob "nope*"]
        ["proj/conf/base", "proj/conf/local"]) ∧
    ¬ ((⟨"proj/conf", "base", "local", none,
        [("catalog", []), ("parameters", []), ("credentials", []), ("logging", [])]⟩ :
          ConfigLoader).get [] ["nope*"] = Except.ok []) := by
  decide

/-- C3 (amended): on the full discovery path (no truthy fast-path hit), when
no files match any pattern in any resolved directory, `get` propagates the
missing-configuration error rather than returning an empty mapping. -/
theorem C3_no_match_raises (cl : ConfigLoader) (fs : List FsFile) (patterns : List String)
    (hfast : ∀ v, fastValue cl patterns = some v → v = [])
    (hmiss : _get_config_from_patterns fs cl.conf_paths (patterns.map PatternElem.glob) =
      Except.error (ConfigError.missingConfig (patterns.map PatternElem.glob) cl.conf_paths)) :
    cl.get fs patterns =
      Except.error (ConfigError.missingConfig (patterns.map PatternElem.glob) cl.conf_paths) := by
  rw [ConfigLoader.get]
  cases hfv : fastValue cl patterns with
  | none => exact hmiss
  | some v =>
    have hv := hfast v hfv
    rw [hv]
    simp [hmiss]

/-- Witness for the amended C3. -/
theorem C3_witness :
    (⟨"proj/conf", "base", "local", none,
      [("catalog", []), ("parameters", []), ("credentials", []), ("logging", [])]⟩ :
        ConfigLoader).get [] ["absent*"] =
      Except.error (ConfigError.missingConfig [PatternElem.glob "absent*"]
        ["proj/conf/base", "proj/conf/local"]) :=
  C3_no_match_raises _ [] ["absent*"]
    (fun v hv => by
      have h0 : fastValue (⟨"proj/conf", "base", "local", none,
          [("catalog", []), ("parameters", []), ("credentials", []), ("logging", [])]⟩ :
            ConfigLoader) ["absent*"] = none := by decide
      rw [h0] at hv
      cases hv)
    (by decide)

/-- C5: the resolved configuration path sequence is the two-element sequence
base path first, run path second, deduplicated keeping the first occurrence
(a single element exactly when the run environment equals the base
environment), where the effective run environment is `env` when non-empty and
`default_run_env` otherwise. -/
theorem C5_conf_paths_structure (cs be dre : String) (env : Option String)
    (m : List (String × ConfigDict)) :
    (ConfigLoader.mk cs be dre env m).conf_paths =
      (if be = pyOrStr env dre then [cs ++ "/" ++ be]
       else [cs ++ "/" ++ be, cs ++ "/" ++ pyOrStr env dre]) ∧
    pyOrStr none dre = dre ∧
    (∀ e : String, e ≠ "" → pyOrStr (some e) dre = e) ∧
    pyOrStr (some "") dre = dre := by
  refine ⟨?_, rfl, ?_, rfl⟩
  · rw [ConfigLoader.conf_paths, ConfigLoader._build_conf_paths]
    rw [remove_duplicates_pair]
    by_cases h : be = pyOrStr env dre
    · rw [if_pos h]
      have hp : cs ++ "/" ++ be = cs ++ "/" ++ pyOrStr env dre := by rw [h]
      rw [if_pos hp]
    · rw [if_neg h]
      have hp : ¬ (cs ++ "/" ++ be = cs ++ "/" ++ pyOrStr env dre) :=
        fun hEq => h (conf_path_inj hEq)
      rw [if_neg hp]
  · intro e he
    simp [pyOrStr, he]

/-- Witness for C5: with a distinct run environment both paths appear, base
first; the non-empty `env` argument overrides the default run environment. -/
theorem C5_witness :
    (ConfigLoader.mk "proj/conf" "base" "dflt" (some "local") []).conf_paths =
      ["proj/conf/base", "proj/conf/local"] ∧
    pyOrStr (some "local") "dflt" = "local" :=
  ⟨((C5_conf_paths_structure "proj/conf" "base" "dflt" (some "local") []).1).trans (by decide),
   (C5_conf_paths_structure "proj/conf" "base" "dflt" (some "local") []).2.2.1 "local"
     (by decide)⟩

/-- C4: `get_essential_config` downgrades exactly the missing-configuration
failure of discovery-and-merge to a warning plus empty mapping; duplicate-key
and parse errors propagate unchanged, and a successful discovery result is
returned without a warning. -/
theorem C4_downgrade_exactly_missing (cl : ConfigLoader) (fs : List FsFile)
    (t : String) (pv : Option PatternElem) :
    (cl.get_essential_config fs t pv = Except.ok ([], true) ↔
      _get_config_from_patterns fs cl.conf_paths (essentialPatterns t pv) =
        Except.error (ConfigError.missingConfig (essentialPatterns t pv) cl.conf_paths)) ∧
    (∀ k f1 f2,
      _get_config_from_patterns fs cl.conf_paths (essentialPatterns t pv) =
          Except.error (ConfigError.duplicateKeys k f1 f2) →
        cl.get_essential_config fs t pv = Except.error (ConfigError.duplicateKeys k f1 f2)) ∧
    (∀ p,
      _get_config_from_patterns fs cl.conf_paths (essentialPatterns t pv) =
          Except.error (ConfigError.parseError p) →
        cl.get_essential_config fs t pv = Except.error (ConfigError.parseError p)) ∧
    (∀ c,
      _get_config_from_patterns fs cl.conf_paths (essentialPatterns t pv) = Except.ok c →
        cl.get_essential_config fs t pv = Except.ok (c, false)) := by
  refine ⟨⟨?_, ?_⟩, ?_, ?_, ?_⟩
  · intro h
    rw [ConfigLoader.get_essential_config] at h
    cases hd : _get_config_from_patterns fs cl.conf_paths (essentialPatterns t pv) with
    | error e =>
      rw [hd] at h
      cases e with
      | missingConfig a b =>
        obtain ⟨ha, hb⟩ := get_config_missing_args _ _ _ _ _ hd
        rw [ha, hb]
      | duplicateKeys k f1 f2 => cases h
      | parseError p => cases h
    | ok c =>
      rw [hd] at h
      injection h with h1
      have h2 : false = true := congrArg Prod.snd h1
      cases h2
  · intro h
    rw [ConfigLoader.get_essential_config, h]
  · intro k f1 f2 h
    rw [ConfigLoader.get_essential_config, h]
  · intro p h
    rw [ConfigLoader.get_essential_config, h]
  · intro c h
    rw [ConfigLoader.get_essential_config, h]

/-- Witness for C4: on an empty filesystem the credentials bootstrap is
downgraded to a warning and an empty mapping. -/
theorem C4_witness :
    (⟨"proj/conf", "base", "local", none, []⟩ : ConfigLoader).get_essential_config []
        "credentials" none = Except.ok ([], true) :=
  (C4_downgrade_exactly_missing (⟨"proj/conf", "base", "local", none, []⟩ : ConfigLoader) []
    "credentials" none).1.mpr (by decide)

/-- Counterexample to C1 as stated: constructing the loader with a non-empty
pre-supplied catalog override `{a: 1}` over a filesystem whose base
environment holds `catalog.yml = {b: 2}` does not store the override — the
stored catalog section is the filesystem discovery result. -/
theorem C1_counterexample :
    ¬ ((mkConfigLoader [⟨"proj/conf/base/catalog.yml", some [("b", 2)]⟩] "proj/conf"
          (some (PatternElem.dictPat [("a", 1)])) none none none none "base" "local").map
        (fun cl => lookupKey cl.mapping "catalog") = Except.ok (some [("a", 1)])) := by
  decide

/-- C1 (amended): a non-empty pre-supplied value for an essential section does
not bypass filesystem discovery.  Because of the tuple precedence on line 128,
the truthy supplied value merely replaces the first default glob pattern while
the other two default glob patterns are always kept, discovery still runs, and
the section's stored config is the (possibly downgraded) discovery result. -/
theorem C1_override_does_not_bypass :
    (∀ (t : String) (pv : PatternElem), pv.truthy = true →
      essentialPatterns t (some pv) =
        [pv, PatternElem.glob (t ++ "*/**"), PatternElem.glob ("**/" ++ t ++ "*")]) ∧
    (∀ fs cs cat par cred lg env be dre cl,
      mkConfigLoader fs cs cat par cred lg env be dre = Except.ok cl →
      ∀ cw, (preLoader cs be dre env).get_essential_config fs "catalog" cat = Except.ok cw →
        lookupKey cl.mapping "catalog" = some cw.1) := by
  constructor
  · intro t pv hpv
    rw [essentialPatterns]
    simp [hpv]
  · intro fs cs cat par cred lg env be dre cl h cw hcw
    simp only [mkConfigLoader] at h
    split at h
    · cases h
    · rename_i cat1 heq1
      split at h
      · cases h
      · rename_i par1 heq2
        split at h
        · cases h
        · rename_i cred1 heq3
          split at h
          · cases h
          · rename_i lg1 heq4
            injection h with h1
            subst h1
            have hc : cat1 = cw := by
              have h2 := heq1.symm.trans hcw
              injection h2
            subst hc
            simp [lookupKey]

/-- Witness for the amended C1: the truthy dict override lands in first
pattern position, and on the concrete filesystem the stored catalog section
is the discovery result `{b: 2}`, not the override. -/
theorem C1_witness :
    essentialPatterns "catalog" (some (PatternElem.dictPat [("a", 1)])) =
      [PatternElem.dictPat [("a", 1)], PatternElem.glob "catalog*/**",
       PatternElem.glob "**/catalog*"] ∧
    lookupKey (ConfigLoader.mk "proj/conf" "base" "local" none
        [("catalog", [("b", 2)]), ("parameters", []), ("credentials", []),
         ("logging", [])]).mapping "catalog" = some [("b", 2)] := by
  constructor
  · exact (C1_override_does_not_bypass.1 "catalog" (PatternElem.dictPat [("a", 1)])
      (by decide)).trans (by decide)
  · exact C1_override_does_not_bypass.2 [⟨"proj/conf/base/catalog.yml", some [("b", 2)]⟩]
      "proj/conf" (some (PatternElem.dictPat [("a", 1)])) none none none none "base" "local"
      (ConfigLoader.mk "proj/conf" "base" "local" none
        [("catalog", [("b", 2)]), ("parameters", []), ("credentials", []), ("logging", [])])
      (by decide) ([("b", 2)], false) (by decide)

/-! ### Lemmas about lookup, overlay and per-directory merging -/

theorem lookupKey_eq_none_iff {β : Type} (l : List (String × β)) (k : String) :
    lookupKey l k = none ↔ k ∉ l.map Prod.fst := by
  induction l with
  | nil => simp [lookupKey]
  | cons kv rest ih =>
    obtain ⟨k0, v⟩ := kv
    rw [lookupKey]
    by_cases h : k0 = k
    · subst h
      simp
    · rw [if_neg h, ih]
      simp only [List.map_cons, List.mem_cons]
      constructor
      · intro hn hor
        rcases hor with h1 | h2
        · exact h h1.symm
        · exact hn h2
      · intro hn h2
        exact hn (Or.inr h2)

theorem lookupKey_append_of_some {β : Type} {a : List (String × β)} {k : String} {p : β}
    (b : List (String × β)) (h : lookupKey a k = some p) :
    lookupKey (a ++ b) k = some p := by
  induction a with
  | nil => cases h
  | cons kv rest ih =>
    obtain ⟨k0, v⟩ := kv
    rw [lookupKey] at h
    by_cases hk : k0 = k
    · rw [if_pos hk] at h
      simpa [lookupKey, hk] using h
    · rw [if_neg hk] at h
      simpa [lookupKey, hk] using ih h

theorem lookupKey_append_of_none {β : Type} {a : List (String × β)} {k : String}
    (b : List (String × β)) (h : lookupKey a k = none) :
    lookupKey (a ++ b) k = lookupKey b k := by
  induction a with
  | nil => simp
  | cons kv rest ih =>
    obtain ⟨k0, v⟩ := kv
    rw [lookupKey] at h
    by_cases hk : k0 = k
    · rw [if_pos hk] at h
      cases h
    · rw [if_neg hk] at h
      simpa [lookupKey, hk] using ih h

theorem lookupKey_setKey_self (a : ConfigDict) (k : Key) (v : Nat) :
    lookupKey (setKey a k v) k = some v := by
  induction a with
  | nil => simp [setKey, lookupKey]
  | cons kv rest ih =>
    obtain ⟨k0, v0⟩ := kv
    by_cases h : k0 = k
    · simp [setKey, h, lookupKey]
    · simp [setKey, h, lookupKey, ih]

theorem lookupKey_setKey_ne (a : ConfigDict) (k k2 : Key) (v : Nat) (h : k2 ≠ k) :
    lookupKey (setKey a k v) k2 = lookupKey a k2 := by
  have h2 : ¬ (k = k2) := fun hk => h hk.symm
  induction a with
  | nil => simp [setKey, lookupKey, h2]
  | cons kv rest ih =>
    obtain ⟨k0, v0⟩ := kv
    by_cases h0 : k0 = k
    · subst h0
      rw [setKey, if_pos rfl, lookupKey, if_neg h2, lookupKey, if_neg h2]
    · rw [setKey, if_neg h0, lookupKey, lookupKey]
      by_cases hk02 : k0 = k2
      · rw [if_pos hk02, if_pos hk02]
      · rw [if_neg hk02, if_neg hk02, ih]

theorem overlay_lookup_of_none (dir : ConfigDict) (a : ConfigDict) (k : Key)
    (h : lookupKey dir k = none) :
    lookupKey (overlay a dir) k = lookupKey a k := by
  induction dir generalizing a with
  | nil => rfl
  | cons kv rest ih =>
    obtain ⟨k1, v1⟩ := kv
    rw [lookupKey] at h
    by_cases h1 : k1 = k
    · rw [if_pos h1] at h
      cases h
    · rw [if_neg h1] at h
      have := ih (setKey a k1 v1) h
      rw [overlay] at *
      simp only [List.foldl_cons] at *
      rw [this, lookupKey_setKey_ne _ _ _ _ (fun hk => h1 hk.symm)]

theorem overlay_lookup_of_some (dir : ConfigDict) (a : ConfigDict) (k : Key)
    (hnd : (dir.map Prod.fst).Nodup) (hmem : k ∈ dir.map Prod.fst) :
    lookupKey (overlay a dir) k = lookupKey dir k := by
  induction dir generalizing a with
  | nil => cases hmem
  | cons kv rest ih =>
    obtain ⟨k1, v1⟩ := kv
    simp only [List.map_cons, List.nodup_cons] at hnd
    obtain ⟨hk1, hndr⟩ := hnd
    rw [overlay]
    simp only [List.foldl_cons]
    by_cases h1 : k1 = k
    · subst h1
      have hnone : lookupKey rest k1 = none := (lookupKey_eq_none_iff rest k1).mpr hk1
      have := overlay_lookup_of_none rest (setKey a k1 v1) k1 hnone
      rw [overlay] at this
      rw [this, lookupKey_setKey_self, lookupKey, if_pos rfl]
    · have hmem2 : k ∈ rest.map Prod.fst := by
        rcases List.mem_cons.mp hmem with h | h
        · exact absurd h.symm h1
        · exact h
      have := ih (setKey a k1 v1) hndr hmem2
      rw [overlay] at this
      rw [this, lookupKey, if_neg h1]

theorem stripProvenance_keys (acc : DirAcc) :
    (stripProvenance acc).map Prod.fst = acc.map Prod.fst := by
  induction acc with
  | nil => rfl
  | cons kv rest ih => simp [stripProvenance, ih] at *

theorem insertEntries_nodup {file : String} {es : List (Key × Nat)} {acc acc2 : DirAcc}
    (h : insertEntries file es acc = Except.ok acc2)
    (hnd : (acc.map Prod.fst).Nodup) : (acc2.map Prod.fst).Nodup := by
  induction es generalizing acc with
  | nil =>
    rw [insertEntries] at h
    injection h with h1
    rwa [h1] at hnd
  | cons kv rest ih =>
    obtain ⟨k, v⟩ := kv
    rw [insertEntries] at h
    cases hl : lookupKey acc k with
    | some p =>
      rw [hl] at h
      obtain ⟨f0, w⟩ := p
      cases h
    | none =>
      rw [hl] at h
      refine ih h ?_
      have hk : k ∉ acc.map Prod.fst := (lookupKey_eq_none_iff acc k).mp hl
      simp [List.nodup_append, hnd, hk]

theorem mergeDirFiles_nodup {files : List FsFile} {acc acc2 : DirAcc}
    (h : mergeDirFiles files acc = Except.ok acc2)
    (hnd : (acc.map Prod.fst).Nodup) : (acc2.map Prod.fst).Nodup := by
  induction files generalizing acc with
  | nil =>
    rw [mergeDirFiles] at h
    injection h with h1
    rwa [h1] at hnd
  | cons f rest ih =>
    rw [mergeDirFiles] at h
    split at h
    · cases h
    · split at h
      · cases h
      · rename_i entries hp accm hi
        exact ih h (insertEntries_nodup hi hnd)

theorem mergeDir_ok_nodup {fs : List FsFile} {cp : String} {pats : List PatternElem}
    {d : ConfigDict} (h : mergeDir fs cp pats = Except.ok d) :
    (d.map Prod.fst).Nodup := by
  rw [mergeDir] at h
  cases hm : mergeDirFiles (matchingFiles fs cp pats) [] with
  | error e =>
    rw [hm] at h
    cases h
  | ok acc =>
    rw [hm] at h
    injection h with h1
    rw [← h1, stripProvenance_keys]
    exact mergeDirFiles_nodup hm (by simp)

theorem discovery_pair_eq {fs : List FsFile} {A B : String} {pats : List PatternElem}
    {ma mb m : ConfigDict}
    (h1 : mergeDir fs A pats = Except.ok ma) (h2 : mergeDir fs B pats = Except.ok mb)
    (h3 : _get_config_from_patterns fs [A, B] pats = Except.ok m) :
    m = overlay (overlay [] ma) mb := by
  have hp : processPaths fs pats [A, B] [] 0 =
      Except.ok (overlay (overlay [] ma) mb,
        0 + (matchingFiles fs A pats).length + (matchingFiles fs B pats).length) := by
    simp only [processPaths, h1, h2]
  simp only [_get_config_from_patterns, hp] at h3
  split at h3
  · cases h3
  · injection h3 with h4
    exact h4.symm

/-- C7: across the resolution order, the later directory wins — whenever both
directories of a two-element path sequence define a key, the aggregated
mapping holds the later directory's value; concretely, with base
`catalog.yml = {a: 1, b: 2}` and local `catalog.yml = {b: 3, c: 4}`,
`get "catalog*"` returns `{a: 1, b: 3, c: 4}`. -/
theorem C7_later_directory_wins :
    (∀ (fs : List FsFile) (A B : String) (pats : List PatternElem)
        (ma mb m : ConfigDict) (k : Key),
      mergeDir fs A pats = Except.ok ma → mergeDir fs B pats = Except.ok mb →
      _get_config_from_patterns fs [A, B] pats = Except.ok m →
      (∃ v, lookupKey ma k = some v) → (∃ v, lookupKey mb k = some v) →
      lookupKey m k = lookupKey mb k) ∧
    (mkConfigLoader
        [⟨"proj/conf/base/catalog.yml", some [("a", 1), ("b", 2)]⟩,
         ⟨"proj/conf/local/catalog.yml", some [("b", 3), ("c", 4)]⟩] "proj/conf"
        none none none none (some "local") "base" "local").map
      (fun cl => cl.get
        [⟨"proj/conf/base/catalog.yml", some [("a", 1), ("b", 2)]⟩,
         ⟨"proj/conf/local/catalog.yml", some [("b", 3), ("c", 4)]⟩] ["catalog*"]) =
      Except.ok (Except.ok [("a", 1), ("b", 3), ("c", 4)]) := by
  constructor
  · intro fs A B pats ma mb m k h1 h2 h3 _hka hkb
    have hm : m = overlay (overlay [] ma) mb := discovery_pair_eq h1 h2 h3
    have hnb : (mb.map Prod.fst).Nodup := mergeDir_ok_nodup h2
    obtain ⟨v, hv⟩ := hkb
    have hmem : k ∈ mb.map Prod.fst := by
      by_contra hnm
      rw [(lookupKey_eq_none_iff mb k).mpr hnm] at hv
      cases hv
    rw [hm]
    exact overlay_lookup_of_some mb (overlay [] ma) k hnb hmem
  · decide

/-- Witness for C7: a key defined in both the base and the local directory
resolves to the local (later) value after aggregation. -/
theorem C7_witness :
    lookupKey ([("k", 2)] : ConfigDict) "k" = some 2 := by
  have h := C7_later_directory_wins.1
    [⟨"c/base/cat.yml", some [("k", 1)]⟩, ⟨"c/local/cat.yml", some [("k", 2)]⟩]
    "c/base" "c/local" [PatternElem.glob "cat*"] [("k", 1)] [("k", 2)] [("k", 2)] "k"
    (by decide) (by decide) (by decide) ⟨1, by decide⟩ ⟨2, by decide⟩
  exact h.trans (by decide)

theorem insertEntries_preserves {file : String} {es : List (Key × Nat)} {acc acc2 : DirAcc}
    (h : insertEntries file es acc = Except.ok acc2) {k : Key} {p : String × Nat}
    (hl : lookupKey acc k = some p) : lookupKey acc2 k = some p := by
  induction es generalizing acc with
  | nil =>
    rw [insertEntries] at h
    injection h with h1
    rwa [h1] at hl
  | cons kv rest ih =>
    obtain ⟨k1, v1⟩ := kv
    rw [insertEntries] at h
    cases hk : lookupKey acc k1 with
    | some q =>
      rw [hk] at h
      obtain ⟨f0, w⟩ := q
      cases h
    | none =>
      rw [hk] at h
      exact ih h (lookupKey_append_of_some _ hl)

theorem mergeDirFiles_preserves {files : List FsFile} {acc acc2 : DirAcc}
    (h : mergeDirFiles files acc = Except.ok acc2) {k : Key} {p : String × Nat}
    (hl : lookupKey acc k = some p) : lookupKey acc2 k = some p := by
  induction files generalizing acc with
  | nil =>
    rw [mergeDirFiles] at h
    injection h with h1
    rwa [h1] at hl
  | cons f rest ih =>
    rw [mergeDirFiles] at h
    split at h
    · cases h
    · split at h
      · cases h
      · rename_i entries hpe accm hi
        exact ih h (insertEntries_preserves hi hl)

theorem insertEntries_records {file : String} {es : List (Key × Nat)} {acc acc2 : DirAcc}
    (h : insertEntries file es acc = Except.ok acc2) {k : Key} {v : Nat}
    (hmem : (k, v) ∈ es) : ∃ w, lookupKey acc2 k = some (file, w) := by
  induction es generalizing acc with
  | nil => cases hmem
  | cons kv rest ih =>
    obtain ⟨k1, v1⟩ := kv
    rw [insertEntries] at h
    cases hk : lookupKey acc k1 with
    | some q =>
      rw [hk] at h
      obtain ⟨f0, w⟩ := q
      cases h
    | none =>
      rw [hk] at h
      rcases List.mem_cons.mp hmem with heq | hr
      · injection heq with e1 e2
        subst e1
        refine ⟨v1, ?_⟩
        have hbase : lookupKey (acc ++ [(k, (file, v1))]) k = some (file, v1) := by
          rw [lookupKey_append_of_none _ hk]
          simp [lookupKey]
        exact insertEntries_preserves h hbase
      · exact ih h hr

theorem mergeDirFiles_records {files : List FsFile} {acc acc2 : DirAcc}
    (h : mergeDirFiles files acc = Except.ok acc2) {f : FsFile} {es : List (Key × Nat)}
    {k : Key} {v : Nat} (hf : f ∈ files) (hp : f.parsed = some es) (hmem : (k, v) ∈ es) :
    ∃ w, lookupKey acc2 k = some (f.path, w) := by
  induction files generalizing acc with
  | nil => cases hf
  | cons g rest ih =>
    rw [mergeDirFiles] at h
    split at h
    · cases h
    · split at h
      · cases h
      · rename_i hpe xv accm hi
        rcases List.mem_cons.mp hf with heq | hr
        · subst heq
          rw [hp] at hpe
          injection hpe with he
          subst he
          obtain ⟨w, hw⟩ := insertEntries_records hi hmem
          exact ⟨w, mergeDirFiles_preserves h hw⟩
        · exact ih h hr

theorem insertEntries_error_dup {file : String} {es : List (Key × Nat)} {acc : DirAcc}
    {e : ConfigError} (h : insertEntries file es acc = Except.error e) :
    ∃ k f1, e = ConfigError.duplicateKeys k f1 file := by
  induction es generalizing acc with
  | nil =>
    rw [insertEntries] at h
    cases h
  | cons kv rest ih =>
    obtain ⟨k1, v1⟩ := kv
    rw [insertEntries] at h
    cases hk : lookupKey acc k1 with
    | some q =>
      rw [hk] at h
      obtain ⟨f0, w⟩ := q
      have he : ConfigError.duplicateKeys k1 f0 file = e := by injection h
      exact ⟨k1, f0, he.symm⟩
    | none =>
      rw [hk] at h
      exact ih h

theorem mergeDirFiles_no_parse {files : List FsFile} {acc : DirAcc}
    (hall : ∀ f ∈ files, f.parsed ≠ none) {p : String} :
    mergeDirFiles files acc ≠ Except.error (ConfigError.parseError p) := by
  induction files generalizing acc with
  | nil =>
    rw [mergeDirFiles]
    simp
  | cons g rest ih =>
    rw [mergeDirFiles]
    split
    · rename_i hpe
      exact absurd hpe (hall g (List.mem_cons_self g rest))
    · split
      · rename_i entries hpe e hi
        intro hEq
        have he : e = ConfigError.parseError p := by injection hEq
        rw [he] at hi
        obtain ⟨k, f1, hk⟩ := insertEntries_error_dup hi
        cases hk
      · exact ih (fun f hf => hall f (List.mem_cons_of_mem g hf))

theorem processPaths_ok_mergeDir_ok {fs : List FsFile} {pats : List PatternElem}
    {cps : List String} {acc : ConfigDict} {n : Nat} {r : ConfigDict × Nat}
    (h : processPaths fs pats cps acc n = Except.ok r) {cp : String} (hcp : cp ∈ cps) :
    ∃ d, mergeDir fs cp pats = Except.ok d := by
  induction cps generalizing acc n with
  | nil => cases hcp
  | cons c rest ih =>
    rw [processPaths] at h
    split at h
    · cases h
    · rename_i d hm
      rcases List.mem_cons.mp hcp with heq | hr
      · subst heq
        exact ⟨d, hm⟩
      · exact ih h hr

theorem discovery_ok_mergeDir_ok {fs : List FsFile} {cps : List String}
    {pats : List PatternElem} {m : ConfigDict}
    (h : _get_config_from_patterns fs cps pats = Except.ok m) {cp : String} (hcp : cp ∈ cps) :
    ∃ d, mergeDir fs cp pats = Except.ok d := by
  rw [_get_config_from_patterns] at h
  split at h
  · cases h
  · rename_i cfg n heq
    split at h
    · cases h
    · exact processPaths_ok_mergeDir_ok heq hcp

theorem discovery_missing_mergeDir_ok {fs : List FsFile} {cps : List String}
    {pats : List PatternElem} {a : List PatternElem} {b : List String}
    (h : _get_config_from_patterns fs cps pats =
      Except.error (ConfigError.missingConfig a b)) {cp : String} (hcp : cp ∈ cps) :
    ∃ d, mergeDir fs cp pats = Except.ok d := by
  rw [_get_config_from_patterns] at h
  split at h
  · rename_i e heq
    have he : e = ConfigError.missingConfig a b := by injection h
    rw [he] at heq
    exact absurd heq (processPaths_ne_missing _ _ _ _ _ _ _)
  · rename_i cfg n heq
    split at h
    · exact processPaths_ok_mergeDir_ok heq hcp
    · cases h

/-- C8: two distinct files of the same resolved directory defining the same
top-level key make discovery-and-merge fail with a duplicate-key error (when
all matched files parse), and this failure is never silently resolved: a
successful `get`-path discovery, and a successful (even warning-downgraded)
essential-section retrieval, imply that no resolved directory was in the
duplicate-key condition. -/
theorem C8_duplicate_keys_fatal :
    (∀ (fs : List FsFile) (cp : String) (pats : List PatternElem) (f1 f2 : FsFile)
        (k : Key) (es1 es2 : List (Key × Nat)) (v1 v2 : Nat),
      f1 ∈ matchingFiles fs cp pats → f2 ∈ matchingFiles fs cp pats →
      f1.path ≠ f2.path → f1.parsed = some es1 → (k, v1) ∈ es1 →
      f2.parsed = some es2 → (k, v2) ∈ es2 →
      (∀ f ∈ matchingFiles fs cp pats, f.parsed ≠ none) →
      ∃ k2 g1 g2, mergeDir fs cp pats = Except.error (ConfigError.duplicateKeys k2 g1 g2)) ∧
    (∀ (fs : List FsFile) (cps : List String) (pats : List PatternElem) (m : ConfigDict),
      _get_config_from_patterns fs cps pats = Except.ok m →
      ∀ cp ∈ cps, ∀ k g1 g2,
        mergeDir fs cp pats ≠ Except.error (ConfigError.duplicateKeys k g1 g2)) ∧
    (∀ (cl : ConfigLoader) (fs : List FsFile) (t : String) (pv : Option PatternElem)
        (c : ConfigDict) (w : Bool),
      cl.get_essential_config fs t pv = Except.ok (c, w) →
      ∀ cp ∈ cl.conf_paths, ∀ k g1 g2,
        mergeDir fs cp (essentialPatterns t pv) ≠
          Except.error (ConfigError.duplicateKeys k g1 g2)) := by
  refine ⟨?_, ?_, ?_⟩
  · intro fs cp pats f1 f2 k es1 es2 v1 v2 hf1 hf2 hne hp1 hk1 hp2 hk2 hall
    cases hres : mergeDirFiles (matchingFiles fs cp pats) [] with
    | ok acc =>
      exfalso
      obtain ⟨w1, hw1⟩ := mergeDirFiles_records hres hf1 hp1 hk1
      obtain ⟨w2, hw2⟩ := mergeDirFiles_records hres hf2 hp2 hk2
      rw [hw1] at hw2
      injection hw2 with hw3
      exact hne (congrArg Prod.fst hw3)
    | error e =>
      cases e with
      | duplicateKeys k2 g1 g2 =>
        refine ⟨k2, g1, g2, ?_⟩
        rw [mergeDir, hres]
      | parseError p => exact absurd hres (mergeDirFiles_no_parse hall)
      | missingConfig a b => exact absurd hres (mergeDirFiles_ne_missing _ _ _ _)
  · intro fs cps pats m h cp hcp k g1 g2 hmd
    obtain ⟨d, hd⟩ := discovery_ok_mergeDir_ok h hcp
    rw [hd] at hmd
    cases hmd
  · intro cl fs t pv c w h cp hcp k g1 g2 hmd
    rw [ConfigLoader.get_essential_config] at h
    cases hdis : _get_config_from_patterns fs cl.conf_paths (essentialPatterns t pv) with
    | ok c2 =>
      obtain ⟨d, hd⟩ := discovery_ok_mergeDir_ok hdis hcp
      rw [hd] at hmd
      cases hmd
    | error e =>
      rw [hdis] at h
      cases e with
      | missingConfig a b =>
        obtain ⟨d, hd⟩ := discovery_missing_mergeDir_ok hdis hcp
        rw [hd] at hmd
        cases hmd
      | duplicateKeys k3 f3 g3 => cases h
      | parseError p => cases h

/-- Witness for C8: two files of the same base directory both defining key
`x` produce a duplicate-key error naming the key and both files. -/
theorem C8_witness :
    (∃ k g1 g2,
      mergeDir [⟨"c/base/catalog.yml", some [("x", 1)]⟩,
          ⟨"c/base/catalog2.yml", some [("x", 2)]⟩]
        "c/base" [PatternElem.glob "catalog*"] =
        Except.error (ConfigError.duplicateKeys k g1 g2)) ∧
    mergeDir [⟨"c/base/catalog.yml", some [("x", 1)]⟩,
        ⟨"c/base/catalog2.yml", some [("x", 2)]⟩]
      "c/base" [PatternElem.glob "catalog*"] =
      Except.error (ConfigError.duplicateKeys "x" "c/base/catalog.yml" "c/base/catalog2.yml") :=
  ⟨C8_duplicate_keys_fatal.1
      [⟨"c/base/catalog.yml", some [("x", 1)]⟩, ⟨"c/base/catalog2.yml", some [("x", 2)]⟩]
      "c/base" [PatternElem.glob "catalog*"]
      ⟨"c/base/catalog.yml", some [("x", 1)]⟩ ⟨"c/base/catalog2.yml", some [("x", 2)]⟩
      "x" [("x", 1)] [("x", 2)] 1 2 (by decide) (by decide) (by decide) rfl (by decide) rfl
      (by decide) (by decide),
   by decide⟩
